import Mathlib

/-!
Shallow embedding of the `lexing` library (src/index.ts): the stateful
iterator family, the rule-driven `Tokenizer`, the `Combiner` stack
reduction, the `MachineState` loop, and the buffered `Source` reader.

JavaScript semantics are made explicit:
* `null` and `undefined` values are modelled with `Option` (`none`);
* exceptions become `Except LexError`;
* unbounded `while` loops take a fuel argument, and running out of fuel
  is reported as `LexError.fuelExhausted` (the loop did not finish);
* strings are lists of characters, byte buffers are lists of naturals.
-/

namespace Lexing

/-- Token values (`T` in `Token<T>` is `any` in the tests): `null`, strings,
numbers, and lists of values, as produced by the tokenizer and combiner
rules exercised here. -/
inductive LexValue where
  | null
  | str (s : String)
  | num (n : Int)
  | list (vs : List LexValue)
  deriving Repr

/-- The `Token<T>` from src/index.ts: `{name: string, value: T}`. The name may be
`null` (ignorable token), modelled as `none`. -/
structure Token where
  name : Option String
  value : LexValue
  deriving Repr

/-- The `Token(name, value = null)` factory function. -/
def mkToken (name : String) (value : LexValue := .null) : Token :=
  ⟨some name, value⟩

/-- Errors thrown by the library (plus `fuelExhausted`, which marks an
unbounded loop that did not terminate within the given fuel). -/
inductive LexError where
  /-- Tokenizer: could not find a match in `input` while in state `state`. -/
  | invalidLanguageTokenizer (input : List Char) (state : Option String)
  /-- The `state_rules[state]` is `undefined`: accessing `rules[i]` throws. -/
  | unknownState (state : Option String)
  /-- MachineState: could not find a match in `clean_input` for state `name`. -/
  | invalidLanguageMachine (clean_input : List Char) (name : String)
  /-- MachineState: EOF reached without termination. -/
  | eofNoTermination
  /-- Combiner: no combiner rule found with the given name. -/
  | noCombinerRule (name : LexValue)
  /-- JS `TypeError`: a method was invoked on `undefined`. -/
  | undefinedToken
  /-- JS `TypeError` raised inside a user-supplied rule action. -/
  | typeError
  /-- The fuel for a `while (1)` loop ran out: the loop was still running. -/
  | fuelExhausted
  deriving Repr

/-! ## StringIterator (src/index.ts lines 128-172) -/

/-- The `StringIterator`: wraps a string as a stateful chunked iterable. -/
structure StringIterator where
  _string : List Char
  position : Nat
  deriving Repr, DecidableEq

/-- The `get size()`: total length of the underlying string. -/
def StringIterator.size (it : StringIterator) : Nat :=
  it._string.length

/-- The `peek(length)`: `this._string.slice(this.position, this.position + length)`.
JS `slice` truncates at the end of the string and never pads. -/
def StringIterator.peek (it : StringIterator) (length : Nat) : List Char :=
  (it._string.drop it.position).take length

/-- The `next(length)`: take the same slice as `peek` and advance `position` by
the actual chunk length. -/
def StringIterator.next (it : StringIterator) (length : Nat) :
    List Char × StringIterator :=
  let chunk := (it._string.drop it.position).take length
  (chunk, { it with position := it.position + chunk.length })

/-- The `skip(length)`: advance by `Math.min(length, this._string.length - this.position)`
and return the number of characters skipped. -/
def StringIterator.skip (it : StringIterator) (length : Nat) :
    Nat × StringIterator :=
  let charsSkipped := min length (it._string.length - it.position)
  (charsSkipped, { it with position := it.position + charsSkipped })

/-! ## Tokenizer (src/index.ts lines 386-456)

A JS regex anchored with `^` applied via `input.match(...)` is modelled as a
function from the peeked window to an optional `match[0]` text.  A rule's
action receives `match[0]` and the live state stack (actions run with `this`
bound to the TokenizerIterator and may mutate `this.states`), and returns a
token or `null` plus the updated state stack. -/

/-- A matcher abstracts `input.match(regexp)` for a start-anchored regexp:
it returns the matched text `match[0]`, or `none` when there is no match. -/
def RegexMatcher : Type := List Char → Option (List Char)

/-- The `RegexAction<T>`: receives the match and (a handle on) the mutable state
stack, returns a `Token`-or-`null` and the possibly mutated state stack. -/
def RegexAction : Type := List Char → List String → Option Token × List String

/-- The `RegexRule<T>`: a pattern/action pair. -/
structure RegexRule where
  pattern : RegexMatcher
  action : RegexAction

/-- The `Tokenizer` configuration. `state_rules` is an association list
keyed by state name; `peek_length` defaults to 256. -/
structure Tokenizer where
  default_rules : List RegexRule
  state_rules : List (String × List RegexRule) := []
  peek_length : Nat := 256

/-- The `getRules(state_name)`: default rules when the state is `undefined`,
otherwise `state_rules[state_name]` (which may be `undefined` = `none`). -/
def Tokenizer.getRules (t : Tokenizer) (state_name : Option String) :
    Option (List RegexRule) :=
  match state_name with
  | none => some t.default_rules
  | some s => (t.state_rules.find? (fun p => p.1 = s)).map Prod.snd

/-- The `TokenizerIterator` closure state: the tokenizer, the wrapped
iterable, and the mutable state stack. -/
structure TokenizerIterator where
  tokenizer : Tokenizer
  iterable : StringIterator
  states : List String

/-- The rule scan inside `TokenizerIterator._next`: try each rule in
declaration order against the peeked window; on the first match, skip the
matched length and invoke the rule's action; if the rules run out, throw
the invalid-language error identifying the window and the active state. -/
def scanRules (ti : TokenizerIterator) (rules : List RegexRule)
    (input : List Char) (state : Option String) :
    Except LexError (Option Token × TokenizerIterator) :=
  match rules with
  | [] => .error (.invalidLanguageTokenizer input state)
  | rule :: rest =>
    match rule.pattern input with
    | some m =>
      let iterable' := (ti.iterable.skip m.length).2
      let result := rule.action m ti.states
      .ok (result.1, { ti with iterable := iterable', states := result.2 })
    | none => scanRules ti rest input state

/-- The `TokenizerIterator._next()`: read the active state from the top of the
state stack, fetch its rule set, peek the window and scan the rules. -/
def tokenizerNext1 (ti : TokenizerIterator) :
    Except LexError (Option Token × TokenizerIterator) :=
  let state := ti.states.getLast?
  match ti.tokenizer.getRules state with
  | none => .error (.unknownState state)
  | some rules =>
    let input := ti.iterable.peek ti.tokenizer.peek_length
    scanRules ti rules input state

/-- The `TokenizerIterator.next()`: loop `_next()` until the produced token is
neither `null` nor named `null`. -/
def tokenizerNext : Nat → TokenizerIterator →
    Except LexError (Token × TokenizerIterator)
  | 0, _ => .error .fuelExhausted
  | fuel + 1, ti =>
    match tokenizerNext1 ti with
    | .error e => .error e
    | .ok (token, ti') =>
      match token with
      | some t =>
        if t.name.isSome then .ok (t, ti') else tokenizerNext fuel ti'
      | none => tokenizerNext fuel ti'

/-- The `readToEOF` helper from src/tests/simple.ts: pull tokens, collecting
them, until one named `EOF` is pulled (the `EOF` token is included). -/
def readToEOF {σ : Type} (step : σ → Except LexError (Token × σ)) :
    Nat → σ → Except LexError (List Token)
  | 0, _ => .error .fuelExhausted
  | fuel + 1, s =>
    match step s with
    | .error e => .error e
    | .ok (t, s') =>
      if t.name = some "EOF" then .ok [t]
      else
        match readToEOF step fuel s' with
        | .error e => .error e
        | .ok ts => .ok (t :: ts)

/-! ## The concrete rules of the tokenizer test (src/tests/simple.ts) -/

/-- JS `\s` character class (the members that can appear in this development). -/
def jsIsSpace (c : Char) : Bool :=
  c == ' ' || c == '\t' || c == '\n' || c == '\r' || c == '\x0b' || c == '\x0c'

/-- JS `\w` character class: `[A-Za-z0-9_]`. -/
def jsIsWord (c : Char) : Bool :=
  ('a' ≤ c && c ≤ 'z') || ('A' ≤ c && c ≤ 'Z') || ('0' ≤ c && c ≤ '9') || c == '_'

/-- The `input.match(/^$/)` (no multiline flag): matches the empty string only. -/
def matchCaretDollar : RegexMatcher :=
  fun input => if input.isEmpty then some [] else none

/-- The `input.match(/^\s+/)`: the maximal (greedy) nonempty run of whitespace
at the start of the input. -/
def matchSpacePlus : RegexMatcher :=
  fun input =>
    let run := input.takeWhile jsIsSpace
    if run.isEmpty then none else some run

/-- The `input.match(/^\w+/)`: the maximal (greedy) nonempty run of word
characters at the start of the input. -/
def matchWordPlus : RegexMatcher :=
  fun input =>
    let run := input.takeWhile jsIsWord
    if run.isEmpty then none else some run

/-- The rule list of the tokenizer spec:
`[/^$/ -> Token('EOF'), /^\s+/ -> null, /^\w+/ -> Token('WORD', match[0])]`. -/
def simpleRules : List RegexRule :=
  [ ⟨matchCaretDollar, fun _ sts => (some (mkToken "EOF"), sts)⟩,
    ⟨matchSpacePlus, fun _ sts => (none, sts)⟩,
    ⟨matchWordPlus, fun m sts => (some (mkToken "WORD" (.str (String.mk m))), sts)⟩ ]

/-- The tokenizer of the tokenizer spec. -/
def simpleTokenizer : Tokenizer :=
  { default_rules := simpleRules }

/-- The iterator state at the start of the C1 scenario. -/
def c1Start : TokenizerIterator :=
  { tokenizer := simpleTokenizer,
    iterable := ⟨"This is a simple sentence".toList, 0⟩,
    states := [] }

/-- Running the C1 scenario to EOF. -/
def c1Run : Except LexError (List Token) :=
  readToEOF (tokenizerNext 10) 10 c1Start

/-! ## MachineState (src/index.ts lines 533-620)

`MachineState<T, I>` carries an internal value of type `I`, a rule table and
the shared iterable.  A rule's callback is a bound instance method: it sees
the match, may update the internal value, may consume further input through
the shared iterable (e.g. via `attachState(...).read()`), and returns a
result of type `T` or `undefined` (= `none`) to keep looping.  The runtime
class name used in error messages becomes an explicit `name` field. -/

/-- The `MachineRule<T>` as used by a `MachineState<T, I>` instance. -/
structure MachineRule (I T : Type) where
  pattern : RegexMatcher
  callback : List Char → I → StringIterator → I × StringIterator × Option T

/-- A `MachineState<T, I>` instance. -/
structure MachineState (I T : Type) where
  name : String
  rules : List (MachineRule I T)
  value : I
  iterable : StringIterator
  peek_length : Nat := 256

/-- The inner `for` loop of `MachineState.read()`: the first rule whose
pattern matches the window, together with its match. -/
def machineScan {I T : Type} (rules : List (MachineRule I T))
    (input : List Char) : Option (MachineRule I T × List Char) :=
  match rules with
  | [] => none
  | rule :: rest =>
    match rule.pattern input with
    | some m => some (rule, m)
    | none => machineScan rest input

/-- The `.replace(/\r\n|\r/g, '\n')` on a character list. -/
def normalizeCR : List Char → List Char
  | [] => []
  | '\r' :: '\n' :: rest => '\n' :: normalizeCR rest
  | '\r' :: rest => '\n' :: normalizeCR rest
  | c :: rest => c :: normalizeCR rest

/-- The display cleanup in `MachineState.read()`:
`input.slice(0, 128).replace(/\r\n|\r/g, '\n').replace(/\t|\v|\f/g, ' ').replace(/\0|\b/g, '')`.
In the last step the bare `\b` is a zero-width word boundary (not the
backspace character), so replacing it with the empty string removes
nothing; only NUL characters are dropped. -/
def cleanInput (input : List Char) : List Char :=
  (((normalizeCR (input.take 128)).map
      (fun c => if c == '\t' || c == '\x0b' || c == '\x0c' then ' ' else c)).filter
    (fun c => !(c == '\x00')))

/-- The `MachineState.read()`.  In the source, the no-match check after the rule
scan is `if (match === null)`, where `match` is only ever written by
`input.match(rule[0])` inside the scan.  With a nonempty rule list a fully
failed scan leaves `match` equal to `null` (set by the last rule tried), so
the invalid-language error fires; with an empty rule list the scan body
never runs, `match` keeps its function-scoped `undefined` value from the
first iteration onward, and the `while (1)` loop spins forever — modelled
by recursing until the fuel runs out. -/
def machineRead {I T : Type} :
    Nat → MachineState I T → Except LexError (T × MachineState I T)
  | 0, _ => .error .fuelExhausted
  | fuel + 1, st =>
    let input := st.iterable.peek st.peek_length
    match machineScan st.rules input with
    | some (rule, m) =>
      let it1 := (st.iterable.skip m.length).2
      let res := rule.callback m st.value it1
      let st' := { st with value := res.1, iterable := res.2.1 }
      match res.2.2 with
      | some result => .ok (result, st')
      | none =>
        if input.length = 0 then .error .eofNoTermination
        else machineRead fuel st'
    | none =>
      match st.rules with
      | [] => machineRead fuel st
      | _ :: _ => .error (.invalidLanguageMachine (cleanInput input) st.name)

/-! ## Concrete fixtures for the tokenizer/machine theorems -/

/-- The `input.match(/^[a-z]/)`: a single lower-case letter at the start. -/
def matchOneAlpha : RegexMatcher :=
  fun input =>
    match input with
    | c :: _ => if 'a' ≤ c && c ≤ 'z' then some [c] else none
    | [] => none

/-- A rule producing a `WS` token on whitespace (overlap fixture). -/
def wsRule : RegexRule :=
  ⟨matchSpacePlus, fun _ sts => (some (mkToken "WS"), sts)⟩

/-- An earlier rule matching a single letter (overlap fixture). -/
def shortRule : RegexRule :=
  ⟨matchOneAlpha, fun _ sts => (some (mkToken "SHORT"), sts)⟩

/-- A later rule matching a longer word prefix (overlap fixture). -/
def longRule : RegexRule :=
  ⟨matchWordPlus, fun m sts => (some (mkToken "LONG" (.str (String.mk m))), sts)⟩

/-- Overlapping-rules tokenizer: `shortRule` is declared before `longRule`
and both match at the same position on the input "abc". -/
def overlapStart : TokenizerIterator :=
  { tokenizer := { default_rules := [wsRule, shortRule, longRule] },
    iterable := ⟨"abc".toList, 0⟩,
    states := [] }

/-- A whitespace-first iterator state (null-token fixture). -/
def wsStart : TokenizerIterator :=
  { tokenizer := simpleTokenizer, iterable := ⟨" a".toList, 0⟩, states := [] }

/-- The tokenizer of the tests applied to input matched by no rule. -/
def punctStart : TokenizerIterator :=
  { tokenizer := simpleTokenizer, iterable := ⟨".".toList, 0⟩, states := [] }

/-- A machine state whose single rule matches only word characters. -/
def wordMachine : MachineState Unit Unit :=
  { name := "WordState",
    rules := [⟨matchWordPlus, fun _ v it => (v, it, none)⟩],
    value := (),
    iterable := ⟨".".toList, 0⟩ }

/-- A machine state whose rule list is empty: its `read()` never terminates. -/
def emptyMachine : MachineState Unit Unit :=
  { name := "EmptyMachine",
    rules := [],
    value := (),
    iterable := ⟨['x'], 0⟩ }

/-! ## ArrayIterator (src/index.ts lines 177-199) -/

/-- The `ArrayIterator<T>`: wraps an array as a (non-chunked) stateful iterable. -/
structure ArrayIterator (T : Type) where
  _array : List T
  position : Nat

/-- The `get size()`: the length of the underlying array. -/
def ArrayIterator.size {T : Type} (it : ArrayIterator T) : Nat :=
  it._array.length

/-- The `next()`: `return this._array[this.position++];` — the element at the
old position (or `undefined` past the end), with `position` incremented
unconditionally, even when it is already at or past the end. -/
def ArrayIterator.next {T : Type} (it : ArrayIterator T) :
    Option T × ArrayIterator T :=
  (it._array[it.position]?, { it with position := it.position + 1 })

/-- The `peek()`: `return this._array[this.position + 1];` — note the index used
is `position + 1`, not `position`. -/
def ArrayIterator.peek {T : Type} (it : ArrayIterator T) : Option T :=
  it._array[it.position + 1]?

/-- The `skip()`: advance by one if not yet at the end, reporting whether the
cursor moved. -/
def ArrayIterator.skip {T : Type} (it : ArrayIterator T) :
    Bool × ArrayIterator T :=
  if it.position < it._array.length then
    (true, { it with position := it.position + 1 })
  else (false, it)

/-! ## Combiner (src/index.ts lines 461-528)

A `CombinerAction` receives the list popped off the pending stack.  When
the stack is empty, `Array.prototype.pop()` returns `undefined` (`none`
here), and that value is handed to the action unchanged; the actions used
in the tests immediately call `.map` on it, so on `none` they raise the JS
`TypeError` that `undefined.map` would produce. -/

/-- The `CombinerRule<T, U>`: a group name and the reduction action. -/
structure CombinerRule where
  name : String
  action : Option (List Token) → Except LexError Token

/-- The `Combiner` configuration: the ordered reduction rule list. -/
structure Combiner where
  rules : List CombinerRule

/-- JS strict equality `s === v` between a string and an arbitrary value:
true only when the value is the same string. -/
def strictEqStr (s : String) (v : LexValue) : Bool :=
  match v with
  | .str t => s == t
  | _ => false

/-- The `Combiner.findRule(name)`: linear scan for the first rule whose
registered name is strictly equal to the given value; throws
"No combiner rule found" when the scan runs out. -/
def Combiner.findRule (c : Combiner) (name : LexValue) :
    Except LexError CombinerRule :=
  match c.rules.find? (fun rule => strictEqStr rule.name name) with
  | some rule => .ok rule
  | none => .error (.noCombinerRule name)

/-- The `CombinerIterator` closure state: the combiner, the wrapped token
iterable, and the mutable stack of pending token lists (top at the end,
matching JS `push`/`pop`). -/
structure CombinerIterator where
  combiner : Combiner
  iterable : ArrayIterator Token
  stack : List (List Token)

/-- The `this.stack[this.stack.length - 1].push(token)`: append to the list at
the top of the stack (only reached when the stack is nonempty). -/
def pushLast (stack : List (List Token)) (token : Token) :
    List (List Token) :=
  stack.dropLast ++ [(stack.getLast?.getD []) ++ [token]]

/-- One pass of the body of `CombinerIterator.next()`: pull a token; on a
token named `END`, pop the top pending list, look the reduction rule up by
the END token's *value* and apply it to the popped list; then route the
(possibly replaced) token: a `START` pushes a fresh empty list, with a
nonempty stack the token is buffered in the top list, and otherwise the
token is emitted.  Where the source recursively calls `this.next()` (the
START and buffering branches), this returns the state for the next pass as
`Sum.inr`; an emitted token is returned as `Sum.inl`. -/
def combinerStep (ci : CombinerIterator) :
    Except LexError ((Token × CombinerIterator) ⊕ CombinerIterator) :=
  let pulled := ci.iterable.next
  match pulled.1 with
  | none => .error .undefinedToken
  | some token =>
    let step : Except LexError (Token × List (List Token)) :=
      if token.name = some "END" then
        let tokens := ci.stack.getLast?
        let stack' := ci.stack.dropLast
        match ci.combiner.findRule token.value with
        | .error e => .error e
        | .ok rule =>
          match rule.action tokens with
          | .error e => .error e
          | .ok t => .ok (t, stack')
      else .ok (token, ci.stack)
    match step with
    | .error e => .error e
    | .ok (token', stack') =>
      if token'.name = some "START" then
        .ok (.inr { ci with iterable := pulled.2, stack := stack' ++ [[]] })
      else if stack'.length > 0 then
        .ok (.inr
          { ci with iterable := pulled.2, stack := pushLast stack' token' })
      else
        .ok (.inl (token', { ci with iterable := pulled.2, stack := stack' }))

/-- The `CombinerIterator.next()`: run `combinerStep` passes (the source's
tail-recursive `return this.next()` calls) until a token is emitted. -/
def combinerNext : Nat → CombinerIterator →
    Except LexError (Token × CombinerIterator)
  | 0, _ => .error .fuelExhausted
  | fuel + 1, ci =>
    match combinerStep ci with
    | .error e => .error e
    | .ok (.inl out) => .ok out
    | .ok (.inr ci') => combinerNext fuel ci'

/-- The routing tail of `CombinerIterator.next()`, as a function of the
token that survived the `END` replacement step: used to state how the
replacement token produced by a reduction is itself re-routed. -/
def routeToken (fuel : Nat) (ci : CombinerIterator) (token : Token) :
    Except LexError (Token × CombinerIterator) :=
  if token.name = some "START" then
    combinerNext fuel { ci with stack := ci.stack ++ [[]] }
  else if ci.stack.length > 0 then
    combinerNext fuel { ci with stack := pushLast ci.stack token }
  else
    .ok (token, ci)

/-! ## Concrete fixtures for the combiner theorems -/

mutual

/-- The `String(v)` as rendered by `Array.prototype.join`: `null` becomes the
empty string, strings stay, numbers print, arrays join with commas. -/
def jsString : LexValue → String
  | .null => ""
  | .str s => s
  | .num n => toString n
  | .list vs => jsStringJoin vs

/-- Comma-joined rendering of a value list (JS array-to-string). -/
def jsStringJoin : List LexValue → String
  | [] => ""
  | [v] => jsString v
  | v :: vs => jsString v ++ "," ++ jsStringJoin vs

end

/-- The `tokens.map(token => token.value).join('')` over a value list. -/
def joinValues (vs : List LexValue) : String :=
  String.join (vs.map jsString)

/-- The STRING reduction rule of the combiner spec. -/
def stringRule : CombinerRule :=
  ⟨"STRING", fun tokens? =>
    match tokens? with
    | none => .error .typeError
    | some tokens =>
      .ok (mkToken "STRING" (.str (joinValues (tokens.map Token.value))))⟩

/-- The ARRAY reduction rule of the combiner spec. -/
def arrayRule : CombinerRule :=
  ⟨"ARRAY", fun tokens? =>
    match tokens? with
    | none => .error .typeError
    | some tokens => .ok (mkToken "ARRAY" (.list (tokens.map Token.value)))⟩

/-- The combiner of the combiner spec. -/
def stringCombiner : Combiner :=
  ⟨[stringRule, arrayRule]⟩

/-- The input token stream of the C5 nesting scenario. -/
def c5Input : List Token :=
  [ mkToken "WORD" (.str "BT"),
    mkToken "START" (.str "ARRAY"),
    mkToken "START" (.str "STRING"),
    mkToken "CHAR" (.str "A"),
    mkToken "CHAR" (.str "b"),
    mkToken "CHAR" (.str "c"),
    mkToken "END" (.str "STRING"),
    mkToken "NUMBER" (.num 10),
    mkToken "START" (.str "STRING"),
    mkToken "CHAR" (.str "D"),
    mkToken "CHAR" (.str "e"),
    mkToken "CHAR" (.str "f"),
    mkToken "END" (.str "STRING"),
    mkToken "NUMBER" (.num 20),
    mkToken "END" (.str "ARRAY"),
    mkToken "WORD" (.str "ET"),
    mkToken "EOF" ]

/-- The combiner iterator at the start of the C5 scenario. -/
def c5Start : CombinerIterator :=
  { combiner := stringCombiner, iterable := ⟨c5Input, 0⟩, stack := [] }

/-- Running the C5 scenario to EOF. -/
def c5Run : Except LexError (List Token) :=
  readToEOF (combinerNext 50) 50 c5Start

/-- A combiner iterator whose next pulled token is `END:"STRING"` with one
pending list on the stack. -/
def c6Start : CombinerIterator :=
  { combiner := stringCombiner,
    iterable := ⟨[mkToken "END" (.str "STRING")], 0⟩,
    stack := [[mkToken "CHAR" (.str "A")]] }

/-- A reduction rule that tolerates the `undefined` popped list. -/
def lenientRule : CombinerRule :=
  ⟨"LENIENT", fun _ => .ok (mkToken "G")⟩

/-- A combiner holding only the lenient rule. -/
def lenientCombiner : Combiner :=
  ⟨[lenientRule]⟩

/-- A combiner iterator about to pull `END:"LENIENT"` at root level (the
pending stack is empty). -/
def c10Start : CombinerIterator :=
  { combiner := lenientCombiner,
    iterable := ⟨[mkToken "END" (.str "LENIENT")], 0⟩,
    stack := [] }

/-! ## BufferIterator (src/index.ts lines 73-121)

Bytes are naturals; JS `Buffer.slice` truncates at the end of the buffer
and never pads, exactly like `List.drop`/`List.take`. -/

/-- The `BufferIterator`: wraps a byte buffer as a stateful chunked iterable. -/
structure BufferIterator where
  _buffer : List Nat
  position : Nat

/-- The `get size()`: total length of the underlying buffer. -/
def BufferIterator.size (it : BufferIterator) : Nat :=
  it._buffer.length

/-- The `peek(length)`: `this._buffer.slice(this.position, this.position + length)`. -/
def BufferIterator.peek (it : BufferIterator) (length : Nat) : List Nat :=
  (it._buffer.drop it.position).take length

/-- The `next(length)`: take the `peek` slice and advance `position` by the
actual slice length. -/
def BufferIterator.next (it : BufferIterator) (length : Nat) :
    List Nat × BufferIterator :=
  let buffer := (it._buffer.drop it.position).take length
  (buffer, { it with position := it.position + buffer.length })

/-- The `skip(length)`: advance by
`Math.min(length, this._buffer.length - this.position)` and return the
number of bytes skipped. -/
def BufferIterator.skip (it : BufferIterator) (length : Nat) :
    Nat × BufferIterator :=
  let bytesSkipped := min length (it._buffer.length - it.position)
  (bytesSkipped, { it with position := it.position + bytesSkipped })

/-! ## Operation sequences over the stateful iterators -/

/-- One public call on a chunked iterator (`BufferIterator`/`StringIterator`). -/
inductive ChunkOp where
  | peek (length : Nat)
  | next (length : Nat)
  | skip (length : Nat)

/-- The state effect of one call on a `BufferIterator` (`peek` returns a
slice and leaves the state untouched). -/
def BufferIterator.applyOp (it : BufferIterator) : ChunkOp → BufferIterator
  | .peek _ => it
  | .next length => (it.next length).2
  | .skip length => (it.skip length).2

/-- The state after a sequence of calls on a `BufferIterator`. -/
def BufferIterator.applyOps : BufferIterator → List ChunkOp → BufferIterator
  | it, [] => it
  | it, op :: rest => (it.applyOp op).applyOps rest

/-- The state effect of one call on a `StringIterator`. -/
def StringIterator.applyOp (it : StringIterator) : ChunkOp → StringIterator
  | .peek _ => it
  | .next length => (it.next length).2
  | .skip length => (it.skip length).2

/-- The state after a sequence of calls on a `StringIterator`. -/
def StringIterator.applyOps : StringIterator → List ChunkOp → StringIterator
  | it, [] => it
  | it, op :: rest => (it.applyOp op).applyOps rest

/-- One public call on an `ArrayIterator` (no chunking). -/
inductive ArrayOp where
  | peek
  | next
  | skip
  deriving DecidableEq

/-- The state effect of one call on an `ArrayIterator`. -/
def ArrayIterator.applyOp {T : Type} (it : ArrayIterator T) :
    ArrayOp → ArrayIterator T
  | .peek => it
  | .next => it.next.2
  | .skip => it.skip.2

/-- The state after a sequence of calls on an `ArrayIterator`. -/
def ArrayIterator.applyOps {T : Type} :
    ArrayIterator T → List ArrayOp → ArrayIterator T
  | it, [] => it
  | it, op :: rest => (it.applyOp op).applyOps rest

/-! ## BufferedSourceReader (src/index.ts lines 212-355)

The `Source` interface: `read(buffer, offset, length, position)` copies up
to `length` bytes from absolute `position` into a caller-allocated scratch
buffer and returns the count copied; here the copied bytes themselves are
returned.  The scratch buffer holds `length` bytes, so at most `length`
bytes can arrive (hence the `take length`).  The reader's `while` loop in
`_readWhile` is unbounded, so it takes a fuel argument (running out of
fuel returns the reader as it stands: enough fuel reproduces any
terminating run). -/

/-- The `Source` capability consumed by the buffered readers. -/
structure Source where
  read : Nat → Nat → List Nat
  size : Nat

/-- The `BufferedSourceReader`: the source, the absolute fetch cursor
`_position`, the block size, and the internal accumulation buffer. -/
structure BufferedSourceReader where
  _source : Source
  _position : Nat
  _block_size : Nat := 1024
  _buffer : List Nat := []

/-- The `get position()`: `this._position - this._buffer.length` — the byte
offset the next consumed byte would come from, not the raw fetch cursor. -/
def BufferedSourceReader.position (r : BufferedSourceReader) : Nat :=
  r._position - r._buffer.length

/-- The `get size()`: the total size of the underlying source. -/
def BufferedSourceReader.size (r : BufferedSourceReader) : Nat :=
  r._source.size

/-- The `_fillBuffer(length)`: read at the current fetch cursor, advance the
cursor by the bytes actually read, and append exactly those bytes to the
buffer (`Buffer.concat` with the `this._buffer.length + bytesRead` total
length slices the fresh scratch buffer).  Returns `bytesRead < length`
(the EOF indication) alongside the new state. -/
def BufferedSourceReader._fillBuffer (r : BufferedSourceReader)
    (length : Nat) : Bool × BufferedSourceReader :=
  let bytes := (r._source.read length r._position).take length
  let bytesRead := bytes.length
  (bytesRead < length,
    { r with _position := r._position + bytesRead,
             _buffer := r._buffer ++ bytes })

/-- The `_readWhile(predicate)`: fill the buffer in `_block_size` blocks while
the predicate holds of the buffer, stopping early when a fill reports EOF. -/
def BufferedSourceReader._readWhile :
    Nat → (List Nat → Bool) → BufferedSourceReader → BufferedSourceReader
  | 0, _, r => r
  | fuel + 1, predicate, r =>
    if predicate r._buffer then
      if (r._fillBuffer r._block_size).1 then (r._fillBuffer r._block_size).2
      else BufferedSourceReader._readWhile fuel predicate
        (r._fillBuffer r._block_size).2
    else r

/-- The `_peekBytes(length)`: read until the buffer holds `length` bytes (or
EOF), and return the buffer's first `length` bytes without consuming. -/
def BufferedSourceReader._peekBytes (fuel length : Nat)
    (r : BufferedSourceReader) : List Nat × BufferedSourceReader :=
  let r' := BufferedSourceReader._readWhile fuel
    (fun buffer => decide (length > buffer.length)) r
  (r'._buffer.take length, r')

/-- The `_nextBytes(length)`: like `_peekBytes` but slices the returned bytes
off the front of the buffer. -/
def BufferedSourceReader._nextBytes (fuel length : Nat)
    (r : BufferedSourceReader) : List Nat × BufferedSourceReader :=
  let res := BufferedSourceReader._peekBytes fuel length r
  (res.1, { res.2 with _buffer := res.2._buffer.drop length })

/-- The `_skipBytes(length)`: like `_nextBytes` without returning the data;
returns `Math.min(length, this._buffer.length)` as the skipped count. -/
def BufferedSourceReader._skipBytes (fuel length : Nat)
    (r : BufferedSourceReader) : Nat × BufferedSourceReader :=
  let r' := BufferedSourceReader._readWhile fuel
    (fun buffer => decide (length > buffer.length)) r
  (min length r'._buffer.length, { r' with _buffer := r'._buffer.drop length })

/-- The `SourceStringIterator.peek(length)`: re-decode the whole byte buffer on
every call (`decode` abstracts `buffer.toString(encoding)`), reading until
the decoded string holds `length` characters, and return its first
`length` characters without consuming. -/
def sourceStringPeek (decode : List Nat → List Char) (fuel length : Nat)
    (r : BufferedSourceReader) : List Char × BufferedSourceReader :=
  let r' := BufferedSourceReader._readWhile fuel
    (fun buffer => decide (length > (decode buffer).length)) r
  ((decode r'._buffer).take length, r')

end Lexing

/-- C1: the rule list maps the string "This is a simple sentence" to exactly
WORD:"This", WORD:"is", WORD:"a", WORD:"simple", WORD:"sentence", EOF,
in that order. -/
theorem Lexing.c1_simple_sentence :
    Lexing.c1Run = .ok
      [ Lexing.mkToken "WORD" (.str "This"),
        Lexing.mkToken "WORD" (.str "is"),
        Lexing.mkToken "WORD" (.str "a"),
        Lexing.mkToken "WORD" (.str "simple"),
        Lexing.mkToken "WORD" (.str "sentence"),
        Lexing.mkToken "EOF" ] := by
  rfl

namespace Lexing

/-- Scanning a rule list in which every rule before `rule` fails on `input`
and `rule` matches fires exactly `rule`'s action. -/
theorem scanRules_append_first (ti : TokenizerIterator) (input : List Char)
    (state : Option String) (pre post : List RegexRule) (rule : RegexRule)
    (m : List Char)
    (hpre : ∀ r ∈ pre, r.pattern input = none)
    (hmatch : rule.pattern input = some m) :
    scanRules ti (pre ++ rule :: post) input state =
      .ok ((rule.action m ti.states).1,
        { ti with iterable := (ti.iterable.skip m.length).2,
                  states := (rule.action m ti.states).2 }) := by
  induction pre with
  | nil => simp [scanRules, hmatch]
  | cons p rest ih =>
    have hp : p.pattern input = none := hpre p (List.mem_cons_self p rest)
    simpa [scanRules, hp] using ih (fun r hr => hpre r (List.mem_cons_of_mem p hr))

/-- Scanning a rule list in which every rule fails on `input` throws the
invalid-language error carrying the window and the active state. -/
theorem scanRules_all_fail (ti : TokenizerIterator) (input : List Char)
    (state : Option String) (rules : List RegexRule)
    (hfail : ∀ r ∈ rules, r.pattern input = none) :
    scanRules ti rules input state =
      .error (.invalidLanguageTokenizer input state) := by
  induction rules with
  | nil => rfl
  | cons r rest ih =>
    have hr : r.pattern input = none := hfail r (List.mem_cons_self r rest)
    simpa [scanRules, hr] using ih (fun r hr => hfail r (List.mem_cons_of_mem _ hr))

/-- The machine rule scan fails when every pattern fails on `input`. -/
theorem machineScan_all_fail {I T : Type} (rules : List (MachineRule I T))
    (input : List Char)
    (hfail : ∀ r ∈ rules, r.pattern input = none) :
    machineScan rules input = none := by
  induction rules with
  | nil => rfl
  | cons r rest ih =>
    have hr : r.pattern input = none := hfail r (List.mem_cons_self r rest)
    simpa [machineScan, hr] using ih (fun r hr => hfail r (List.mem_cons_of_mem _ hr))

end Lexing

/-- C2: for every rule list, state, and input, the per-step match tries the
rules of the active rule set strictly in declaration order and the first
rule whose pattern matches the peeked window fires its action: here the
active rule set is `pre ++ rule :: post`, every rule of `pre` fails on the
window, and `rule` matches, so `_next` skips the match and returns `rule`'s
action — no rule of `post` is consulted, regardless of what it would match. -/
theorem Lexing.c2_first_rule_wins (ti : Lexing.TokenizerIterator)
    (pre post : List Lexing.RegexRule) (rule : Lexing.RegexRule) (m : List Char)
    (hrules : ti.tokenizer.getRules ti.states.getLast? = some (pre ++ rule :: post))
    (hpre : ∀ r ∈ pre,
      r.pattern (ti.iterable.peek ti.tokenizer.peek_length) = none)
    (hmatch : rule.pattern (ti.iterable.peek ti.tokenizer.peek_length) = some m) :
    Lexing.tokenizerNext1 ti =
      .ok ((rule.action m ti.states).1,
        { ti with iterable := (ti.iterable.skip m.length).2,
                  states := (rule.action m ti.states).2 }) := by
  simp only [Lexing.tokenizerNext1, hrules]
  exact Lexing.scanRules_append_first ti _ _ pre post rule m hpre hmatch

/-- C2 witness: on input "abc" with rules `[wsRule, shortRule, longRule]`,
`wsRule` fails, `shortRule` matches "a" and fires, even though `longRule`
would match the longer prefix "abc". -/
theorem Lexing.c2_witness :
    Lexing.tokenizerNext1 Lexing.overlapStart =
      .ok (some (Lexing.mkToken "SHORT"),
        { tokenizer := Lexing.overlapStart.tokenizer,
          iterable := ⟨"abc".toList, 1⟩,
          states := [] }) :=
  Lexing.c2_first_rule_wins Lexing.overlapStart
    [Lexing.wsRule] [Lexing.longRule] Lexing.shortRule ['a']
    (by rfl)
    (by
      intro r hr
      rw [List.mem_singleton] at hr
      subst hr
      rfl)
    (by rfl)

/-- C3: the public `next()` never returns `null` nor a token whose name is
`null`: (1) every token it returns has a non-null name; (2) whenever the
per-step `_next` produces `null` or a null-named token, that result is
discarded and the loop continues from the advanced iterator state. -/
theorem Lexing.c3_next_filters_null :
    (∀ (fuel : Nat) (ti : Lexing.TokenizerIterator) (t : Lexing.Token)
        (ti' : Lexing.TokenizerIterator),
      Lexing.tokenizerNext fuel ti = .ok (t, ti') → t.name.isSome)
  ∧ (∀ (fuel : Nat) (ti ti' : Lexing.TokenizerIterator)
        (token : Option Lexing.Token),
      Lexing.tokenizerNext1 ti = .ok (token, ti') →
      (∀ t, token = some t → t.name = none) →
      Lexing.tokenizerNext (fuel + 1) ti = Lexing.tokenizerNext fuel ti') := by
  constructor
  · intro fuel
    induction fuel with
    | zero => intro ti t ti' h; exact absurd h (by simp [Lexing.tokenizerNext])
    | succ fuel ih =>
      intro ti t ti' h
      rw [Lexing.tokenizerNext] at h
      cases h1 : Lexing.tokenizerNext1 ti with
      | error e => rw [h1] at h; exact absurd h (by simp)
      | ok pair =>
        obtain ⟨token, ti2⟩ := pair
        rw [h1] at h
        cases token with
        | none => exact ih ti2 t ti' h
        | some t' =>
          by_cases hname : t'.name.isSome
          · simp only [hname, if_true] at h
            obtain ⟨rfl, rfl⟩ : t' = t ∧ ti2 = ti' := by
              constructor <;> [exact congrArg Prod.fst (Except.ok.inj h);
                exact congrArg Prod.snd (Except.ok.inj h)]
            exact hname
          · simp only [hname, if_false] at h
            exact ih ti2 t ti' h
  · intro fuel ti ti' token h1 hnull
    rw [Lexing.tokenizerNext, h1]
    cases token with
    | none => rfl
    | some t =>
      have : t.name = none := hnull t rfl
      simp [this]

/-- C3 witness: the first public token of the C1 scenario has a non-null
name, and on a leading-whitespace input the null result of the whitespace
rule is discarded and the loop continues past it. -/
theorem Lexing.c3_witness :
    (Lexing.mkToken "WORD" (.str "This")).name.isSome ∧
    Lexing.tokenizerNext 4 Lexing.wsStart =
      Lexing.tokenizerNext 3
        { tokenizer := Lexing.simpleTokenizer,
          iterable := ⟨" a".toList, 1⟩, states := [] } :=
  ⟨Lexing.c3_next_filters_null.1 10 Lexing.c1Start
      (Lexing.mkToken "WORD" (.str "This"))
      { tokenizer := Lexing.simpleTokenizer,
        iterable := ⟨"This is a simple sentence".toList, 4⟩, states := [] }
      (by rfl),
   Lexing.c3_next_filters_null.2 3 Lexing.wsStart
      { tokenizer := Lexing.simpleTokenizer,
        iterable := ⟨" a".toList, 1⟩, states := [] }
      none (by rfl) (fun t h => nomatch h)⟩

/-- C4 counterexample: a `MachineState` whose rule list is empty (so that no
rule matches any window) does not fail with a no-match error — its `read()`
loops forever, here consuming all 30 units of fuel without producing the
invalid-language error the claim requires. -/
theorem Lexing.c4_counterexample :
    Lexing.machineRead 30 Lexing.emptyMachine = .error .fuelExhausted := by
  rfl

/-- C4 amended: if no rule of the active rule set matches the peeked window,
the Tokenizer's `next()` fails fatally with the no-match error identifying
the window and the active state — for every rule list, empty included; and
`MachineState.read()` fails the same way for every NONEMPTY rule list (with
an empty rule list its no-match sentinel is never set and `read()` loops
forever instead of raising). -/
theorem Lexing.c4_no_match_error :
    (∀ (fuel : Nat) (ti : Lexing.TokenizerIterator)
        (rules : List Lexing.RegexRule),
      ti.tokenizer.getRules ti.states.getLast? = some rules →
      (∀ r ∈ rules,
        r.pattern (ti.iterable.peek ti.tokenizer.peek_length) = none) →
      Lexing.tokenizerNext (fuel + 1) ti =
        .error (.invalidLanguageTokenizer
          (ti.iterable.peek ti.tokenizer.peek_length) ti.states.getLast?))
  ∧ (∀ (fuel : Nat) (I T : Type) (st : Lexing.MachineState I T),
      st.rules ≠ [] →
      (∀ r ∈ st.rules, r.pattern (st.iterable.peek st.peek_length) = none) →
      Lexing.machineRead (fuel + 1) st =
        .error (.invalidLanguageMachine
          (Lexing.cleanInput (st.iterable.peek st.peek_length)) st.name)) := by
  constructor
  · intro fuel ti rules hrules hfail
    rw [Lexing.tokenizerNext]
    simp only [Lexing.tokenizerNext1, hrules,
      Lexing.scanRules_all_fail ti _ _ rules hfail]
  · intro fuel I T st hne hfail
    rw [Lexing.machineRead]
    rw [Lexing.machineScan_all_fail st.rules _ hfail]
    cases h : st.rules with
    | nil => exact absurd h hne
    | cons r rest => simp

/-- C4 witness: the test tokenizer on input "." (matched by no rule) raises
the no-match error naming the window and the default state, and a machine
state with one word-rule on the same input raises the machine-level
no-match error naming the window and the state. -/
theorem Lexing.c4_witness :
    Lexing.tokenizerNext 4 Lexing.punctStart =
      .error (.invalidLanguageTokenizer ['.'] none) ∧
    Lexing.machineRead 4 Lexing.wordMachine =
      .error (.invalidLanguageMachine ['.'] "WordState") :=
  ⟨Lexing.c4_no_match_error.1 3 Lexing.punctStart Lexing.simpleRules
      (by rfl)
      (by
        intro r hr
        simp only [Lexing.simpleRules, List.mem_cons, List.mem_singleton,
          List.not_mem_nil, or_false] at hr
        rcases hr with h | h | h <;> subst h <;> rfl),
   Lexing.c4_no_match_error.2 3 Unit Unit Lexing.wordMachine
      (by simp [Lexing.wordMachine])
      (by
        intro r hr
        simp only [Lexing.wordMachine, List.mem_singleton] at hr
        subst hr
        rfl)⟩

namespace Lexing

/-- Unfolding `readToEOF` one pull at a time: a non-EOF token is collected
and the loop continues on the advanced state. -/
theorem readToEOF_cons {σ : Type} (step : σ → Except LexError (Token × σ))
    (fuel : Nat) (s s' : σ) (t : Token) (ts : List Token)
    (h : step s = .ok (t, s'))
    (hne : ¬ t.name = some "EOF")
    (hrest : readToEOF step fuel s' = .ok ts) :
    readToEOF step (fuel + 1) s = .ok (t :: ts) := by
  rw [readToEOF, h]
  simp [hne, hrest]

/-- Unfolding `readToEOF` at the final pull: the EOF token is collected and
the loop stops. -/
theorem readToEOF_eof {σ : Type} (step : σ → Except LexError (Token × σ))
    (fuel : Nat) (s s' : σ) (t : Token)
    (h : step s = .ok (t, s'))
    (heof : t.name = some "EOF") :
    readToEOF step (fuel + 1) s = .ok [t] := by
  rw [readToEOF, h]
  simp [heof]

/-- A `combinerStep` pass that continues (an internal recursive
`this.next()` call) consumes one unit of fuel. -/
theorem combinerNext_inr (ci ci' : CombinerIterator)
    (h : combinerStep ci = .ok (.inr ci')) (fuel : Nat) :
    combinerNext (fuel + 1) ci = combinerNext fuel ci' := by
  rw [combinerNext, h]

/-- A `combinerStep` pass that emits a token ends the call. -/
theorem combinerNext_inl (ci : CombinerIterator) (t : Token)
    (ci' : CombinerIterator)
    (h : combinerStep ci = .ok (.inl (t, ci'))) (fuel : Nat) :
    combinerNext (fuel + 1) ci = .ok (t, ci') := by
  rw [combinerNext, h]

end Lexing

/-- C5: the nested ARRAY/STRING/NUMBER token stream reduces innermost-first
to exactly WORD:"BT", ARRAY:["Abc", 10, "Def", 20], WORD:"ET", EOF — the
inner STRING spans reduce first and their replacement tokens are buffered
into the enclosing ARRAY span. -/
theorem Lexing.c5_combiner_nesting :
    Lexing.c5Run = .ok
      [ Lexing.mkToken "WORD" (.str "BT"),
        Lexing.mkToken "ARRAY"
          (.list [.str "Abc", .num 10, .str "Def", .num 20]),
        Lexing.mkToken "WORD" (.str "ET"),
        Lexing.mkToken "EOF" ] := by
  have s0 : Lexing.combinerStep Lexing.c5Start =
      .ok (.inl (Lexing.mkToken "WORD" (.str "BT"),
        ⟨Lexing.stringCombiner, ⟨Lexing.c5Input, 1⟩, []⟩)) := rfl
  have s1 : Lexing.combinerStep
        ⟨Lexing.stringCombiner, ⟨Lexing.c5Input, 1⟩, []⟩ =
      .ok (.inr ⟨Lexing.stringCombiner, ⟨Lexing.c5Input, 2⟩, [[]]⟩) := rfl
  have s2 : Lexing.combinerStep
        ⟨Lexing.stringCombiner, ⟨Lexing.c5Input, 2⟩, [[]]⟩ =
      .ok (.inr ⟨Lexing.stringCombiner, ⟨Lexing.c5Input, 3⟩, [[], []]⟩) := rfl
  have s3 : Lexing.combinerStep
        ⟨Lexing.stringCombiner, ⟨Lexing.c5Input, 3⟩, [[], []]⟩ =
      .ok (.inr ⟨Lexing.stringCombiner, ⟨Lexing.c5Input, 4⟩,
        [[], [Lexing.mkToken "CHAR" (.str "A")]]⟩) := rfl
  have s4 : Lexing.combinerStep
        ⟨Lexing.stringCombiner, ⟨Lexing.c5Input, 4⟩,
          [[], [Lexing.mkToken "CHAR" (.str "A")]]⟩ =
      .ok (.inr ⟨Lexing.stringCombiner, ⟨Lexing.c5Input, 5⟩,
        [[], [Lexing.mkToken "CHAR" (.str "A"),
              Lexing.mkToken "CHAR" (.str "b")]]⟩) := rfl
  have s5 : Lexing.combinerStep
        ⟨Lexing.stringCombiner, ⟨Lexing.c5Input, 5⟩,
          [[], [Lexing.mkToken "CHAR" (.str "A"),
                Lexing.mkToken "CHAR" (.str "b")]]⟩ =
      .ok (.inr ⟨Lexing.stringCombiner, ⟨Lexing.c5Input, 6⟩,
        [[], [Lexing.mkToken "CHAR" (.str "A"),
              Lexing.mkToken "CHAR" (.str "b"),
              Lexing.mkToken "CHAR" (.str "c")]]⟩) := rfl
  have s6 : Lexing.combinerStep
        ⟨Lexing.stringCombiner, ⟨Lexing.c5Input, 6⟩,
          [[], [Lexing.mkToken "CHAR" (.str "A"),
                Lexing.mkToken "CHAR" (.str "b"),
                Lexing.mkToken "CHAR" (.str "c")]]⟩ =
      .ok (.inr ⟨Lexing.stringCombiner, ⟨Lexing.c5Input, 7⟩,
        [[Lexing.mkToken "STRING" (.str "Abc")]]⟩) := rfl
  have s7 : Lexing.combinerStep
        ⟨Lexing.stringCombiner, ⟨Lexing.c5Input, 7⟩,
          [[Lexing.mkToken "STRING" (.str "Abc")]]⟩ =
      .ok (.inr ⟨Lexing.stringCombiner, ⟨Lexing.c5Input, 8⟩,
        [[Lexing.mkToken "STRING" (.str "Abc"),
          Lexing.mkToken "NUMBER" (.num 10)]]⟩) := rfl
  have s8 : Lexing.combinerStep
        ⟨Lexing.stringCombiner, ⟨Lexing.c5Input, 8⟩,
          [[Lexing.mkToken "STRING" (.str "Abc"),
            Lexing.mkToken "NUMBER" (.num 10)]]⟩ =
      .ok (.inr ⟨Lexing.stringCombiner, ⟨Lexing.c5Input, 9⟩,
        [[Lexing.mkToken "STRING" (.str "Abc"),
          Lexing.mkToken "NUMBER" (.num 10)], []]⟩) := rfl
  have s9 : Lexing.combinerStep
        ⟨Lexing.stringCombiner, ⟨Lexing.c5Input, 9⟩,
          [[Lexing.mkToken "STRING" (.str "Abc"),
            Lexing.mkToken "NUMBER" (.num 10)], []]⟩ =
      .ok (.inr ⟨Lexing.stringCombiner, ⟨Lexing.c5Input, 10⟩,
        [[Lexing.mkToken "STRING" (.str "Abc"),
          Lexing.mkToken "NUMBER" (.num 10)],
         [Lexing.mkToken "CHAR" (.str "D")]]⟩) := rfl
  have s10 : Lexing.combinerStep
        ⟨Lexing.stringCombiner, ⟨Lexing.c5Input, 10⟩,
          [[Lexing.mkToken "STRING" (.str "Abc"),
            Lexing.mkToken "NUMBER" (.num 10)],
           [Lexing.mkToken "CHAR" (.str "D")]]⟩ =
      .ok (.inr ⟨Lexing.stringCombiner, ⟨Lexing.c5Input, 11⟩,
        [[Lexing.mkToken "STRING" (.str "Abc"),
          Lexing.mkToken "NUMBER" (.num 10)],
         [Lexing.mkToken "CHAR" (.str "D"),
          Lexing.mkToken "CHAR" (.str "e")]]⟩) := rfl
  have s11 : Lexing.combinerStep
        ⟨Lexing.stringCombiner, ⟨Lexing.c5Input, 11⟩,
          [[Lexing.mkToken "STRING" (.str "Abc"),
            Lexing.mkToken "NUMBER" (.num 10)],
           [Lexing.mkToken "CHAR" (.str "D"),
            Lexing.mkToken "CHAR" (.str "e")]]⟩ =
      .ok (.inr ⟨Lexing.stringCombiner, ⟨Lexing.c5Input, 12⟩,
        [[Lexing.mkToken "STRING" (.str "Abc"),
          Lexing.mkToken "NUMBER" (.num 10)],
         [Lexing.mkToken "CHAR" (.str "D"),
          Lexing.mkToken "CHAR" (.str "e"),
          Lexing.mkToken "CHAR" (.str "f")]]⟩) := rfl
  have s12 : Lexing.combinerStep
        ⟨Lexing.stringCombiner, ⟨Lexing.c5Input, 12⟩,
          [[Lexing.mkToken "STRING" (.str "Abc"),
            Lexing.mkToken "NUMBER" (.num 10)],
           [Lexing.mkToken "CHAR" (.str "D"),
            Lexing.mkToken "CHAR" (.str "e"),
            Lexing.mkToken "CHAR" (.str "f")]]⟩ =
      .ok (.inr ⟨Lexing.stringCombiner, ⟨Lexing.c5Input, 13⟩,
        [[Lexing.mkToken "STRING" (.str "Abc"),
          Lexing.mkToken "NUMBER" (.num 10),
          Lexing.mkToken "STRING" (.str "Def")]]⟩) := rfl
  have s13 : Lexing.combinerStep
        ⟨Lexing.stringCombiner, ⟨Lexing.c5Input, 13⟩,
          [[Lexing.mkToken "STRING" (.str "Abc"),
            Lexing.mkToken "NUMBER" (.num 10),
            Lexing.mkToken "STRING" (.str "Def")]]⟩ =
      .ok (.inr ⟨Lexing.stringCombiner, ⟨Lexing.c5Input, 14⟩,
        [[Lexing.mkToken "STRING" (.str "Abc"),
          Lexing.mkToken "NUMBER" (.num 10),
          Lexing.mkToken "STRING" (.str "Def"),
          Lexing.mkToken "NUMBER" (.num 20)]]⟩) := rfl
  have s14 : Lexing.combinerStep
        ⟨Lexing.stringCombiner, ⟨Lexing.c5Input, 14⟩,
          [[Lexing.mkToken "STRING" (.str "Abc"),
            Lexing.mkToken "NUMBER" (.num 10),
            Lexing.mkToken "STRING" (.str "Def"),
            Lexing.mkToken "NUMBER" (.num 20)]]⟩ =
      .ok (.inl (Lexing.mkToken "ARRAY"
          (.list [.str "Abc", .num 10, .str "Def", .num 20]),
        ⟨Lexing.stringCombiner, ⟨Lexing.c5Input, 15⟩, []⟩)) := rfl
  have s15 : Lexing.combinerStep
        ⟨Lexing.stringCombiner, ⟨Lexing.c5Input, 15⟩, []⟩ =
      .ok (.inl (Lexing.mkToken "WORD" (.str "ET"),
        ⟨Lexing.stringCombiner, ⟨Lexing.c5Input, 16⟩, []⟩)) := rfl
  have s16 : Lexing.combinerStep
        ⟨Lexing.stringCombiner, ⟨Lexing.c5Input, 16⟩, []⟩ =
      .ok (.inl (Lexing.mkToken "EOF",
        ⟨Lexing.stringCombiner, ⟨Lexing.c5Input, 17⟩, []⟩)) := rfl
  have h1 := Lexing.combinerNext_inl _ _ _ s0 49
  have h2 : Lexing.combinerNext 50
        ⟨Lexing.stringCombiner, ⟨Lexing.c5Input, 1⟩, []⟩ =
      .ok (Lexing.mkToken "ARRAY"
          (.list [.str "Abc", .num 10, .str "Def", .num 20]),
        ⟨Lexing.stringCombiner, ⟨Lexing.c5Input, 15⟩, []⟩) :=
    (Lexing.combinerNext_inr _ _ s1 49).trans
    ((Lexing.combinerNext_inr _ _ s2 48).trans
    ((Lexing.combinerNext_inr _ _ s3 47).trans
    ((Lexing.combinerNext_inr _ _ s4 46).trans
    ((Lexing.combinerNext_inr _ _ s5 45).trans
    ((Lexing.combinerNext_inr _ _ s6 44).trans
    ((Lexing.combinerNext_inr _ _ s7 43).trans
    ((Lexing.combinerNext_inr _ _ s8 42).trans
    ((Lexing.combinerNext_inr _ _ s9 41).trans
    ((Lexing.combinerNext_inr _ _ s10 40).trans
    ((Lexing.combinerNext_inr _ _ s11 39).trans
    ((Lexing.combinerNext_inr _ _ s12 38).trans
    ((Lexing.combinerNext_inr _ _ s13 37).trans
      (Lexing.combinerNext_inl _ _ _ s14 36)))))))))))))
  have h3 := Lexing.combinerNext_inl _ _ _ s15 49
  have h4 := Lexing.combinerNext_inl _ _ _ s16 49
  exact Lexing.readToEOF_cons _ 49 _ _ _ _ h1 (by simp [Lexing.mkToken])
    (Lexing.readToEOF_cons _ 48 _ _ _ _ h2 (by simp [Lexing.mkToken])
      (Lexing.readToEOF_cons _ 47 _ _ _ _ h3 (by simp [Lexing.mkToken])
        (Lexing.readToEOF_eof _ 46 _ _ _ h4 rfl)))

/-- C6: when a token named END is pulled, the reduction rule is looked up by
the END token's value; if no registered rule passes the strict-equality
comparison with that value, the call fails fatally with the
no-combiner-rule error; if the lookup succeeds, the rule is applied to the
popped pending list and its single result token replaces the END token for
further routing (the routing tail runs on the replacement token over the
popped stack). -/
theorem Lexing.c6_end_reduction (fuel : Nat) (ci : Lexing.CombinerIterator)
    (endTok : Lexing.Token) (it' : Lexing.ArrayIterator Lexing.Token)
    (hnext : ci.iterable.next = (some endTok, it'))
    (hend : endTok.name = some "END") :
    ((∀ r ∈ ci.combiner.rules,
        Lexing.strictEqStr r.name endTok.value = false) →
      Lexing.combinerNext (fuel + 1) ci =
        .error (.noCombinerRule endTok.value))
  ∧ (∀ (rule : Lexing.CombinerRule) (t : Lexing.Token),
      ci.combiner.findRule endTok.value = .ok rule →
      rule.action ci.stack.getLast? = .ok t →
      Lexing.combinerNext (fuel + 1) ci =
        Lexing.routeToken fuel
          { ci with iterable := it', stack := ci.stack.dropLast } t) := by
  constructor
  · intro hnone
    have hfind : ci.combiner.findRule endTok.value =
        .error (.noCombinerRule endTok.value) := by
      unfold Lexing.Combiner.findRule
      rw [List.find?_eq_none.mpr]
      intro r hr
      simp [hnone r hr]
    have hstep : Lexing.combinerStep ci =
        .error (.noCombinerRule endTok.value) := by
      simp only [Lexing.combinerStep, hnext, hend, hfind]
      simp
    rw [Lexing.combinerNext, hstep]
  · intro rule t hfind haction
    have hstep : Lexing.combinerStep ci =
        (if t.name = some "START" then
          .ok (.inr { ci with iterable := it', stack := ci.stack.dropLast ++ [[]] })
        else if ci.stack.dropLast.length > 0 then
          .ok (.inr { ci with iterable := it', stack := Lexing.pushLast ci.stack.dropLast t })
        else
          .ok (.inl (t, { ci with iterable := it', stack := ci.stack.dropLast }))) := by
      simp only [Lexing.combinerStep, hnext, hend, hfind, haction]
      simp
    rw [Lexing.combinerNext, hstep, Lexing.routeToken]
    by_cases hS : t.name = some "START"
    · simp [hS]
    · by_cases hL : 1 < ci.stack.length
      · simp [hS, hL]
      · simp [hS, hL]

/-- C6 witness: pulling END:"STRING" over the pending list [CHAR:"A"] looks
up the STRING rule, reduces the popped list to STRING:"A", and routes that
replacement token over the popped (now empty) stack. -/
theorem Lexing.c6_witness :
    Lexing.combinerNext 11 Lexing.c6Start =
      Lexing.routeToken 10
        { combiner := Lexing.stringCombiner,
          iterable := ⟨[Lexing.mkToken "END" (.str "STRING")], 1⟩,
          stack := [] }
        (Lexing.mkToken "STRING" (.str "A")) :=
  (Lexing.c6_end_reduction 10 Lexing.c6Start
      (Lexing.mkToken "END" (.str "STRING"))
      ⟨[Lexing.mkToken "END" (.str "STRING")], 1⟩
      (by rfl) (by rfl)).2
    Lexing.stringRule (Lexing.mkToken "STRING" (.str "A")) (by rfl) (by rfl)

/-- C10: a token named END pulled while the pending stack is empty pops
`undefined` (`none`) off the empty stack and passes it to the matched
reduction rule unguarded; the combiner raises no stack-underflow or
START/END-mismatch error of its own — the outcome is exactly the rule's
own result, routed as usual. -/
theorem Lexing.c10_end_on_empty_stack (fuel : Nat)
    (ci : Lexing.CombinerIterator) (endTok : Lexing.Token)
    (it' : Lexing.ArrayIterator Lexing.Token) (rule : Lexing.CombinerRule)
    (hnext : ci.iterable.next = (some endTok, it'))
    (hend : endTok.name = some "END")
    (hstack : ci.stack = [])
    (hrule : ci.combiner.findRule endTok.value = .ok rule) :
    Lexing.combinerNext (fuel + 1) ci =
      (match rule.action none with
       | .error e => .error e
       | .ok t =>
         Lexing.routeToken fuel { ci with iterable := it', stack := [] } t) := by
  rw [Lexing.combinerNext]
  cases h : rule.action none with
  | error e =>
    have hstep : Lexing.combinerStep ci = .error e := by
      simp only [Lexing.combinerStep, hnext, hend, hstack, hrule]
      simp [h]
    rw [hstep]
  | ok t =>
    have hstep : Lexing.combinerStep ci =
        (if t.name = some "START" then
          .ok (.inr { ci with iterable := it', stack := [[]] })
        else
          .ok (.inl (t, { ci with iterable := it', stack := [] }))) := by
      simp only [Lexing.combinerStep, hnext, hend, hstack, hrule]
      simp [h]
    rw [hstep]
    by_cases hS : t.name = some "START"
    · simp [hS, Lexing.routeToken]
    · simp [hS, Lexing.routeToken]

/-- C10 witness: END:"LENIENT" at root level (empty stack) reaches the
lenient rule with the `undefined` popped list and simply emits the rule's
result token — no combiner-level error. -/
theorem Lexing.c10_witness :
    Lexing.combinerNext 6 Lexing.c10Start =
      .ok (Lexing.mkToken "G",
        { combiner := Lexing.lenientCombiner,
          iterable := ⟨[Lexing.mkToken "END" (.str "LENIENT")], 1⟩,
          stack := [] }) :=
  Lexing.c10_end_on_empty_stack 5 Lexing.c10Start
    (Lexing.mkToken "END" (.str "LENIENT"))
    ⟨[Lexing.mkToken "END" (.str "LENIENT")], 1⟩
    Lexing.lenientRule (by rfl) (by rfl) (by rfl) (by rfl)

namespace Lexing

/-- One `BufferIterator` call keeps the cursor within bounds. -/
theorem bufferApplyOp_inv (it : BufferIterator) (op : ChunkOp)
    (h : it.position ≤ it.size) :
    (it.applyOp op).position ≤ (it.applyOp op).size := by
  cases op with
  | peek length => exact h
  | next length =>
    simp only [BufferIterator.applyOp, BufferIterator.next,
      BufferIterator.size] at *
    simp only [List.length_take, List.length_drop]
    omega
  | skip length =>
    simp only [BufferIterator.applyOp, BufferIterator.skip,
      BufferIterator.size] at *
    omega

/-- A sequence of `BufferIterator` calls keeps the cursor within bounds. -/
theorem bufferApplyOps_inv (ops : List ChunkOp) :
    ∀ it : BufferIterator, it.position ≤ it.size →
      (it.applyOps ops).position ≤ (it.applyOps ops).size := by
  induction ops with
  | nil => intro it h; exact h
  | cons op rest ih => intro it h; exact ih _ (bufferApplyOp_inv it op h)

/-- One `StringIterator` call keeps the cursor within bounds. -/
theorem stringApplyOp_inv (it : StringIterator) (op : ChunkOp)
    (h : it.position ≤ it.size) :
    (it.applyOp op).position ≤ (it.applyOp op).size := by
  cases op with
  | peek length => exact h
  | next length =>
    simp only [StringIterator.applyOp, StringIterator.next,
      StringIterator.size] at *
    simp only [List.length_take, List.length_drop]
    omega
  | skip length =>
    simp only [StringIterator.applyOp, StringIterator.skip,
      StringIterator.size] at *
    omega

/-- A sequence of `StringIterator` calls keeps the cursor within bounds. -/
theorem stringApplyOps_inv (ops : List ChunkOp) :
    ∀ it : StringIterator, it.position ≤ it.size →
      (it.applyOps ops).position ≤ (it.applyOps ops).size := by
  induction ops with
  | nil => intro it h; exact h
  | cons op rest ih => intro it h; exact ih _ (stringApplyOp_inv it op h)

/-- One `ArrayIterator` call other than `next` keeps the cursor in bounds. -/
theorem arrayApplyOp_inv {T : Type} (it : ArrayIterator T)
    (op : ArrayOp) (hop : op ≠ .next) (h : it.position ≤ it.size) :
    (it.applyOp op).position ≤ (it.applyOp op).size := by
  cases op with
  | peek => exact h
  | next => exact absurd rfl hop
  | skip =>
    simp only [ArrayIterator.applyOp, ArrayIterator.skip,
      ArrayIterator.size] at *
    split
    · simp
      omega
    · exact h

/-- A `next`-free sequence of `ArrayIterator` calls keeps the cursor in
bounds. -/
theorem arrayApplyOps_inv {T : Type} (ops : List ArrayOp) :
    ∀ it : ArrayIterator T, (∀ op ∈ ops, op ≠ .next) →
      it.position ≤ it.size →
      (it.applyOps ops).position ≤ (it.applyOps ops).size := by
  induction ops with
  | nil => intro it _ h; exact h
  | cons op rest ih =>
    intro it hops h
    exact ih _ (fun op hop => hops op (List.mem_cons_of_mem _ hop))
      (arrayApplyOp_inv it op (hops op (List.mem_cons_self op rest)) h)

/-- The `_fillBuffer` advances the fetch cursor and the buffer length by the
same amount, so the public position and size are unchanged. -/
theorem fillBuffer_preserves (r : BufferedSourceReader) (length : Nat) :
    (r._fillBuffer length).2.position = r.position ∧
    (r._fillBuffer length).2.size = r.size := by
  constructor
  · simp only [BufferedSourceReader._fillBuffer, BufferedSourceReader.position,
      List.length_append]
    omega
  · rfl

/-- The `_readWhile` never changes the public position or the size, no matter
the predicate, the fuel, or the source. -/
theorem readWhile_preserves (fuel : Nat) :
    ∀ (predicate : List Nat → Bool) (r : BufferedSourceReader),
      (BufferedSourceReader._readWhile fuel predicate r).position =
        r.position ∧
      (BufferedSourceReader._readWhile fuel predicate r).size = r.size := by
  induction fuel with
  | zero => intro p r; exact ⟨rfl, rfl⟩
  | succ fuel ih =>
    intro p r
    rw [BufferedSourceReader._readWhile]
    split
    · split
      · exact fillBuffer_preserves r r._block_size
      · have h1 := fillBuffer_preserves r r._block_size
        have h2 := ih p (r._fillBuffer r._block_size).2
        exact ⟨h2.1.trans h1.1, h2.2.trans h1.2⟩
    · exact ⟨rfl, rfl⟩

end Lexing

/-- C7 counterexample: the claim fails on the array variant — on the empty
`ArrayIterator` at position 0 (= size), a single `next()` moves the
position to 1, strictly beyond the size 0. -/
theorem Lexing.c7_counterexample :
    ¬ ((Lexing.ArrayIterator.next ⟨([] : List Nat), 0⟩).2.position ≤
       (Lexing.ArrayIterator.next ⟨([] : List Nat), 0⟩).2.size) := by
  decide

/-- C7 amended: for the byte (`BufferIterator`) and string
(`StringIterator`) variants, every operation sequence keeps
`0 <= position <= size`, and at `position = size`, `next` returns an empty
chunk and `skip` returns 0.  For the `ArrayIterator` variant this holds for
`peek`/`skip` sequences, and `skip` at the end returns `false` without
moving — but `next` increments the position unconditionally (by exactly 1,
even at `position = size`), so it can move the position beyond the size. -/
theorem Lexing.c7_iterator_bounds :
    (∀ (ops : List Lexing.ChunkOp) (it : Lexing.BufferIterator),
      it.position ≤ it.size →
      (it.applyOps ops).position ≤ (it.applyOps ops).size)
  ∧ (∀ (ops : List Lexing.ChunkOp) (it : Lexing.StringIterator),
      it.position ≤ it.size →
      (it.applyOps ops).position ≤ (it.applyOps ops).size)
  ∧ (∀ (it : Lexing.BufferIterator) (k : Nat), it.position = it.size →
      (it.next k).1 = [] ∧ (it.skip k).1 = 0)
  ∧ (∀ (it : Lexing.StringIterator) (k : Nat), it.position = it.size →
      (it.next k).1 = [] ∧ (it.skip k).1 = 0)
  ∧ (∀ (T : Type) (ops : List Lexing.ArrayOp) (it : Lexing.ArrayIterator T),
      (∀ op ∈ ops, op ≠ .next) → it.position ≤ it.size →
      (it.applyOps ops).position ≤ (it.applyOps ops).size)
  ∧ (∀ (T : Type) (it : Lexing.ArrayIterator T), it.position = it.size →
      it.skip = (false, it))
  ∧ (∀ (T : Type) (it : Lexing.ArrayIterator T),
      it.next.2.position = it.position + 1) := by
  refine ⟨Lexing.bufferApplyOps_inv,
    Lexing.stringApplyOps_inv, ?_, ?_, ?_, ?_, ?_⟩
  · intro it k h
    simp only [Lexing.BufferIterator.size] at h
    constructor
    · simp [Lexing.BufferIterator.next, h, List.drop_length]
    · simp [Lexing.BufferIterator.skip, h]
  · intro it k h
    simp only [Lexing.StringIterator.size] at h
    constructor
    · simp [Lexing.StringIterator.next, h, List.drop_length]
    · simp [Lexing.StringIterator.skip, h]
  · intro T ops it hops h
    exact Lexing.arrayApplyOps_inv ops it hops h
  · intro T it h
    simp only [Lexing.ArrayIterator.size] at h
    simp [Lexing.ArrayIterator.skip, h]
  · intro T it
    rfl

/-- C7 witness: concrete instances of every conjunct — a mixed call
sequence on a 3-byte buffer and a 2-character string stays within bounds,
`next`/`skip` at the end of those iterators return an empty chunk and 0, a
`peek`/`skip` sequence on a 1-element array stays within bounds, `skip` at
the array's end reports `false`, and array `next` advances by exactly 1. -/
theorem Lexing.c7_witness :
    ((Lexing.BufferIterator.applyOps ⟨[1, 2, 3], 0⟩
        [.peek 2, .next 2, .skip 5]).position ≤
      (Lexing.BufferIterator.applyOps ⟨[1, 2, 3], 0⟩
        [.peek 2, .next 2, .skip 5]).size) ∧
    ((Lexing.StringIterator.applyOps ⟨['a', 'b'], 0⟩
        [.next 1, .skip 9]).position ≤
      (Lexing.StringIterator.applyOps ⟨['a', 'b'], 0⟩
        [.next 1, .skip 9]).size) ∧
    ((Lexing.BufferIterator.next ⟨[1, 2], 2⟩ 4).1 = [] ∧
      (Lexing.BufferIterator.skip ⟨[1, 2], 2⟩ 4).1 = 0) ∧
    ((Lexing.StringIterator.next ⟨['a'], 1⟩ 4).1 = [] ∧
      (Lexing.StringIterator.skip ⟨['a'], 1⟩ 4).1 = 0) ∧
    ((Lexing.ArrayIterator.applyOps ⟨['x'], 0⟩ [.peek, .skip]).position ≤
      (Lexing.ArrayIterator.applyOps ⟨['x'], 0⟩ [.peek, .skip]).size) ∧
    (Lexing.ArrayIterator.skip ⟨['x'], 1⟩ = (false, ⟨['x'], 1⟩)) ∧
    ((Lexing.ArrayIterator.next ⟨['x'], 0⟩).2.position = 0 + 1) :=
  ⟨Lexing.c7_iterator_bounds.1 [.peek 2, .next 2, .skip 5] ⟨[1, 2, 3], 0⟩
      (by decide),
   Lexing.c7_iterator_bounds.2.1 [.next 1, .skip 9] ⟨['a', 'b'], 0⟩
      (by decide),
   Lexing.c7_iterator_bounds.2.2.1 ⟨[1, 2], 2⟩ 4 (by decide),
   Lexing.c7_iterator_bounds.2.2.2.1 ⟨['a'], 1⟩ 4 (by decide),
   Lexing.c7_iterator_bounds.2.2.2.2.1 Char [.peek, .skip] ⟨['x'], 0⟩
      (by decide) (by decide),
   Lexing.c7_iterator_bounds.2.2.2.2.2.1 Char ⟨['x'], 1⟩ (by decide),
   Lexing.c7_iterator_bounds.2.2.2.2.2.2 Char ⟨['x'], 0⟩⟩

/-- C8: the claim is right and the code is wrong — `ArrayIterator.peek()`
reads `this._array[this.position + 1]`, one past the cursor, so at
position 0 over the array ["a", "b"] it returns "b" while the next `next()`
returns "a"; the spec's contract (peek returns the units starting at
`position` without moving the cursor) is the evident intent of the
iterator family, whose other members all slice at `position`. -/
theorem Lexing.c8_peek_off_by_one :
    Lexing.ArrayIterator.peek ⟨["a", "b"], 0⟩ = some "b" ∧
    (Lexing.ArrayIterator.next ⟨["a", "b"], 0⟩).1 = some "a" ∧
    Lexing.ArrayIterator.peek ⟨["a", "b"], 0⟩ ≠
      (Lexing.ArrayIterator.next ⟨["a", "b"], 0⟩).1 := by
  refine ⟨rfl, rfl, ?_⟩
  decide

/-- C9: the public position getter always equals the absolute fetch cursor
minus the buffered byte count, and any `_readWhile`-driven peek — the byte
variant `_peekBytes` and the re-decoding string variant alike, over any
source, predicate, decoder and fuel — leaves the public position and the
size unchanged, however many block reads it issues. -/
theorem Lexing.c9_peek_preserves_position :
    (∀ r : Lexing.BufferedSourceReader,
      r.position = r._position - r._buffer.length)
  ∧ (∀ (fuel : Nat) (predicate : List Nat → Bool)
        (r : Lexing.BufferedSourceReader),
      (Lexing.BufferedSourceReader._readWhile fuel predicate r).position =
        r.position ∧
      (Lexing.BufferedSourceReader._readWhile fuel predicate r).size =
        r.size)
  ∧ (∀ (fuel length : Nat) (r : Lexing.BufferedSourceReader),
      (Lexing.BufferedSourceReader._peekBytes fuel length r).2.position =
        r.position ∧
      (Lexing.BufferedSourceReader._peekBytes fuel length r).2.size =
        r.size)
  ∧ (∀ (decode : List Nat → List Char) (fuel length : Nat)
        (r : Lexing.BufferedSourceReader),
      (Lexing.sourceStringPeek decode fuel length r).2.position =
        r.position ∧
      (Lexing.sourceStringPeek decode fuel length r).2.size = r.size) :=
  ⟨fun _ => rfl,
   Lexing.readWhile_preserves,
   fun fuel _ r => Lexing.readWhile_preserves fuel _ r,
   fun _ fuel _ r => Lexing.readWhile_preserves fuel _ r⟩
